import Mathlib

/-!
Shallow embedding of the stock-signal program (STOCK.PY) and proofs about it.

The program annotates a daily OHLCV price series with technical indicators
(`calculate_technical_indicators`), reduces the annotated series to one
composite trading signal (`generate_signals`), and maintains a watchlist
(`add_stock` / `remove_stock`).

Modelling conventions:
- pandas floats are modelled by `ℚ`; a possibly-NaN indicator cell is
  `Option ℚ`, with `none` playing the role of NaN.  In pandas every
  comparison against NaN is `False`; the `nanGT`/`nanLT`/`nanGE`/`nanLE`
  helpers reproduce that.
- Python's `round(x, 2)` (round half to even at two decimals) is `round2`.
- A data frame is a `List` of rows, oldest first; `df.iloc[-1]` is the last
  element and `df.iloc[-2]` the second to last.
- The standard deviation used by the Bollinger bands involves a real square
  root, which has no exact rational value; the annotation pipeline is
  therefore parametrised by the deviation function `std`, about which the
  theorems assume only what the proofs need (e.g. that it is zero on a
  window of zero variance, as the true square-root deviation is).
-/

/-- One input bar of the OHLCV series (a row of the data frame fetched for a
symbol, before indicator columns are added). -/
structure Bar where
  timestamp : ℚ
  openPrice : ℚ
  high : ℚ
  low : ℚ
  close : ℚ
  volume : ℚ

/-- One row of the annotated data frame: the bar plus the indicator columns
added by `calculate_technical_indicators`.  `none` models a NaN cell. -/
structure Row where
  timestamp : ℚ
  openPrice : ℚ
  high : ℚ
  low : ℚ
  close : ℚ
  volume : ℚ
  sma20 : Option ℚ
  sma50 : Option ℚ
  sma200 : Option ℚ
  ema20 : Option ℚ
  rsi : Option ℚ
  macd : Option ℚ
  macdSignal : Option ℚ
  macdHist : Option ℚ
  bbUpper : Option ℚ
  bbLower : Option ℚ
  bbMid : Option ℚ
  bbWidth : Option ℚ
  obv : Option ℚ
  adx : Option ℚ
  stochK : Option ℚ
  stochD : Option ℚ
  atr : Option ℚ

/-- A row whose every indicator cell is NaN; used only as the default of
list accesses that the emptiness guard of `generate_signals` makes
unreachable. -/
def dummyRow : Row :=
  { timestamp := 0, openPrice := 0, high := 0, low := 0, close := 0, volume := 0,
    sma20 := none, sma50 := none, sma200 := none, ema20 := none, rsi := none,
    macd := none, macdSignal := none, macdHist := none, bbUpper := none,
    bbLower := none, bbMid := none, bbWidth := none, obv := none, adx := none,
    stochK := none, stochD := none, atr := none }

/-- `a > b` as pandas evaluates it: `False` whenever either side is NaN. -/
def nanGT (a b : Option ℚ) : Bool :=
  match a, b with
  | some x, some y => decide (y < x)
  | _, _ => false

/-- `a < b` as pandas evaluates it: `False` whenever either side is NaN. -/
def nanLT (a b : Option ℚ) : Bool :=
  match a, b with
  | some x, some y => decide (x < y)
  | _, _ => false

/-- `a ≤ b` as pandas evaluates it: `False` whenever either side is NaN. -/
def nanLE (a b : Option ℚ) : Bool :=
  match a, b with
  | some x, some y => decide (x ≤ y)
  | _, _ => false

/-- `a ≥ b` as pandas evaluates it: `False` whenever either side is NaN. -/
def nanGE (a b : Option ℚ) : Bool :=
  match a, b with
  | some x, some y => decide (y ≤ x)
  | _, _ => false

/-- Round half to even at integer precision, as Python's `round` does. -/
def roundHalfEven (x : ℚ) : ℤ :=
  let n := ⌊x⌋
  let r := x - n
  if r < 1/2 then n
  else if 1/2 < r then n + 1
  else if 2 ∣ n then n else n + 1

/-- Python's `round(x, 2)`. -/
def round2 (x : ℚ) : ℚ := (roundHalfEven (100 * x) : ℚ) / 100

/-- The heterogeneous `value` payload of one entry of the
`signals['indicators']` dictionary. -/
inductive EntryVal where
  | num : Option ℚ → EntryVal
  | flagTrue : EntryVal
  | bands : ℚ → Option ℚ → EntryVal
  | kd : Option ℚ → Option ℚ → EntryVal
  | vol : ℤ → ℚ → EntryVal
  deriving DecidableEq

/-- One entry of the `signals['indicators']` dictionary:
(rule name, signal kind, payload). -/
abbrev Entry := String × String × EntryVal

/-- The Signal record that `generate_signals` returns. -/
structure Signal where
  symbol : String
  price : ℚ
  change_pct : ℚ
  indicators : List Entry
  overall_signal : String
  signal_strength : ℚ
  deriving DecidableEq

/-- `df.iloc[-1]`, the most recent row (the emptiness guard of
`generate_signals` keeps the dummy default unreachable). -/
def currentOf (df : List Row) : Row := df.getLast?.getD dummyRow

/-- `previous = df.iloc[-2] if len(df) > 1 else None`. -/
def prevOf (df : List Row) : Option Row :=
  if 1 < df.length then df[df.length - 2]? else none

/-- Moving-average rule for SMA20: bullish `+0.5` when the close is above
the average, bearish `-0.5` otherwise (also when the average is NaN).
Returns (dictionary entries, score delta, signal-count delta). -/
def sma20Rule (cur : Row) : List Entry × ℚ × ℕ :=
  if nanGT (some cur.close) cur.sma20 then
    ([("sma20", "bullish", .num (cur.sma20.map round2))], 1/2, 1)
  else
    ([("sma20", "bearish", .num (cur.sma20.map round2))], -(1/2), 1)

/-- Moving-average rule for SMA50, score delta `±1`. -/
def sma50Rule (cur : Row) : List Entry × ℚ × ℕ :=
  if nanGT (some cur.close) cur.sma50 then
    ([("sma50", "bullish", .num (cur.sma50.map round2))], 1, 1)
  else
    ([("sma50", "bearish", .num (cur.sma50.map round2))], -1, 1)

/-- Moving-average rule for SMA200, score delta `±1.5`. -/
def sma200Rule (cur : Row) : List Entry × ℚ × ℕ :=
  if nanGT (some cur.close) cur.sma200 then
    ([("sma200", "bullish", .num (cur.sma200.map round2))], 3/2, 1)
  else
    ([("sma200", "bearish", .num (cur.sma200.map round2))], -(3/2), 1)

/-- Golden/death cross rule; skipped entirely when there is no previous
row.  It adds to the signal count only when it fires. -/
def crossRule (prev : Option Row) (cur : Row) : List Entry × ℚ × ℕ :=
  match prev with
  | none => ([], 0, 0)
  | some p =>
    if nanLE p.sma50 p.sma200 && nanGT cur.sma50 cur.sma200 then
      ([("golden_cross", "bullish", .flagTrue)], 2, 1)
    else if nanGE p.sma50 p.sma200 && nanLT cur.sma50 cur.sma200 then
      ([("death_cross", "bearish", .flagTrue)], -2, 1)
    else ([], 0, 0)

/-- RSI rule: oversold `+1.5` below 30, overbought `-1.5` above 70,
neutral `0` otherwise (also when RSI is NaN). -/
def rsiRule (cur : Row) : List Entry × ℚ × ℕ :=
  if nanLT cur.rsi (some 30) then
    ([("rsi", "oversold", .num (cur.rsi.map round2))], 3/2, 1)
  else if nanGT cur.rsi (some 70) then
    ([("rsi", "overbought", .num (cur.rsi.map round2))], -(3/2), 1)
  else
    ([("rsi", "neutral", .num (cur.rsi.map round2))], 0, 1)

/-- MACD level rule: bullish `+1` when the MACD line is above its signal
line, bearish `-1` otherwise. -/
def macdRule (cur : Row) : List Entry × ℚ × ℕ :=
  if nanGT cur.macd cur.macdSignal then
    ([("macd", "bullish", .num (cur.macd.map round2))], 1, 1)
  else
    ([("macd", "bearish", .num (cur.macd.map round2))], -1, 1)

/-- MACD crossover rule; skipped entirely when there is no previous row.
It adds to the signal count only when it fires. -/
def macdCrossRule (prev : Option Row) (cur : Row) : List Entry × ℚ × ℕ :=
  match prev with
  | none => ([], 0, 0)
  | some p =>
    if nanLE p.macd p.macdSignal && nanGT cur.macd cur.macdSignal then
      ([("macd_crossover", "bullish", .flagTrue)], 3/2, 1)
    else if nanGE p.macd p.macdSignal && nanLT cur.macd cur.macdSignal then
      ([("macd_crossover", "bearish", .flagTrue)], -(3/2), 1)
    else ([], 0, 0)

/-- `bb_position`: position of the close inside the Bollinger band, with
the `0.5` fallback whenever the band width is not positive (in particular
when it is zero, or NaN because a band is NaN). -/
def bb_position (cur : Row) : ℚ :=
  match cur.bbUpper, cur.bbLower with
  | some u, some l => if 0 < u - l then (cur.close - l) / (u - l) else 1/2
  | _, _ => 1/2

/-- Bollinger rule: overbought `-1` above position 0.95, oversold `+1`
below 0.05, neutral `0` otherwise. -/
def bollingerRule (cur : Row) : List Entry × ℚ × ℕ :=
  let pos := bb_position cur
  let ev : EntryVal := .bands (round2 pos) (cur.bbWidth.map round2)
  if 19/20 < pos then ([("bollinger", "overbought", ev)], -1, 1)
  else if pos < 1/20 then ([("bollinger", "oversold", ev)], 1, 1)
  else ([("bollinger", "neutral", ev)], 0, 1)

/-- ADX rule: informational only, it never changes the score and never
adds to the signal count. -/
def adxRule (cur : Row) : List Entry × ℚ × ℕ :=
  if nanGT cur.adx (some 25) then
    ([("adx", "strong_trend", .num (cur.adx.map round2))], 0, 0)
  else if nanLT cur.adx (some 20) then
    ([("adx", "weak_trend", .num (cur.adx.map round2))], 0, 0)
  else
    ([("adx", "neutral", .num (cur.adx.map round2))], 0, 0)

/-- Stochastic rule: oversold `+1` when both %K and %D are below 20,
overbought `-1` when both are above 80, neutral `0` otherwise. -/
def stochRule (cur : Row) : List Entry × ℚ × ℕ :=
  let ev : EntryVal := .kd (cur.stochK.map round2) (cur.stochD.map round2)
  if nanLT cur.stochK (some 20) && nanLT cur.stochD (some 20) then
    ([("stochastic", "oversold", ev)], 1, 1)
  else if nanGT cur.stochK (some 80) && nanGT cur.stochD (some 80) then
    ([("stochastic", "overbought", ev)], -1, 1)
  else ([("stochastic", "neutral", ev)], 0, 1)

/-- `df['Volume'].tail(5).mean()`: mean of the volumes of the last (up to
five) rows. -/
def tailMeanVolume (df : List Row) : ℚ :=
  let t := (df.map Row.volume).drop (df.length - 5)
  if t.length = 0 then 0 else t.sum / t.length

/-- Volume rule: when the volume ratio exceeds 1.5 the entry is `high` and
the score moves `+0.5` or `-0.5` with the close-versus-previous-close
direction; otherwise neutral `0`.  The direction test reads `df.iloc[-2]`
directly; that access is modelled with a default that is unreachable
because a one-row frame always has ratio 1. -/
def volumeRule (df : List Row) (cur : Row) : List Entry × ℚ × ℕ :=
  let avg := tailMeanVolume df
  let ratio := if 0 < avg then cur.volume / avg else 1
  let ev : EntryVal := .vol ⌊cur.volume⌋ (round2 ratio)
  if 3/2 < ratio then
    if ((df[df.length - 2]?).map Row.close).getD cur.close < cur.close then
      ([("volume", "high", ev)], 1/2, 1)
    else
      ([("volume", "high", ev)], -(1/2), 1)
  else ([("volume", "neutral", ev)], 0, 1)

/-- All eleven rule evaluations, in the order the source performs them. -/
def rulesOf (df : List Row) : List (List Entry × ℚ × ℕ) :=
  let cur := currentOf df
  let prev := prevOf df
  [sma20Rule cur, sma50Rule cur, sma200Rule cur, crossRule prev cur,
   rsiRule cur, macdRule cur, macdCrossRule prev cur, bollingerRule cur,
   adxRule cur, stochRule cur, volumeRule df cur]

/-- The accumulated `score` after all rules ran. -/
def scoreOf (df : List Row) : ℚ := ((rulesOf df).map (fun r => r.2.1)).sum

/-- The accumulated `signal_count` after all rules ran. -/
def signalCountOf (df : List Row) : ℕ := ((rulesOf df).map (fun r => r.2.2)).sum

/-- The `signals['indicators']` dictionary, in insertion order. -/
def entriesOf (df : List Row) : List Entry := ((rulesOf df).map (fun r => r.1)).flatten

/-- How many of the two crossover rules fired on this evaluation. -/
def crossFiresOf (df : List Row) : ℕ :=
  (crossRule (prevOf df) (currentOf df)).2.2 +
    (macdCrossRule (prevOf df) (currentOf df)).2.2

/-- The normalized score before clamping: `score / (signal_count * 0.75)`. -/
def preClampOf (df : List Row) : ℚ :=
  scoreOf df / ((signalCountOf df : ℚ) * (3/4))

/-- The normalized score as the source computes it: divided by
`signal_count * 0.75` and clamped to `[-2, 2]` when the count is positive,
`0` otherwise. -/
def normalizedScoreOf (df : List Row) : ℚ :=
  if 0 < signalCountOf df then
    max (min (preClampOf df) 2) (-2)
  else 0

/-- The overall label from the normalized score, by the source's
threshold chain. -/
def overallSignalOf (n : ℚ) : String :=
  if 3/2 < n then "strong_buy"
  else if 1/2 < n then "buy"
  else if -(1/2) < n then "neutral"
  else if -(3/2) < n then "sell"
  else "strong_sell"

/-- `generate_signals`: the Signal Scorer.  Returns `none` on an empty
frame, otherwise the Signal record assembled from the rule evaluations. -/
def generate_signals (df : List Row) (symbol : String) : Option Signal :=
  if df.isEmpty then none
  else
    let cur := currentOf df
    some
      { symbol := symbol
        price := round2 cur.close
        change_pct :=
          match prevOf df with
          | some p => round2 ((cur.close / p.close - 1) * 100)
          | none => 0
        indicators := entriesOf df
        overall_signal := overallSignalOf (normalizedScoreOf df)
        signal_strength := round2 (normalizedScoreOf df) }

/-- Arithmetic mean of a list; 0 for the empty list (every use below is on
a nonempty window). -/
def listMean (l : List ℚ) : ℚ := if l.length = 0 then 0 else l.sum / l.length

/-- The trailing window of (at most) `w` values ending at index `i`. -/
def lastWindow (l : List ℚ) (i w : ℕ) : List ℚ := (l.take (i+1)).drop (i+1-w)

/-- Population variance of a list of values. -/
def popVar (l : List ℚ) : ℚ := listMean (l.map (fun x => (x - listMean l)^2))

/-- Modelled from the spec: SMA(w), the mean of the trailing `w` closes,
undefined for the first `w - 1` bars (the `ta` library computing it is
outside the repository). -/
def smaAt (w : ℕ) (l : List ℚ) (i : ℕ) : Option ℚ :=
  if i + 1 < w then none else some (listMean (lastWindow l i w))

/-- Modelled from the spec: EMA(w) with smoothing factor `2/(w+1)`, seeded
at index `w - 1` with SMA(w), undefined before that. -/
def emaAt (w : ℕ) (l : List ℚ) : ℕ → Option ℚ
  | 0 => if w = 1 then some (l.getD 0 0) else none
  | i + 1 =>
    if i + 2 < w then none
    else if i + 2 = w then smaAt w l (i+1)
    else (emaAt w l i).map (fun e =>
      (2/((w:ℚ)+1)) * l.getD (i+1) 0 + (1 - 2/((w:ℚ)+1)) * e)

/-- Day-over-day close delta at index `j` (0 at the first bar). -/
def deltaAt (l : List ℚ) (j : ℕ) : ℚ :=
  if j = 0 then 0 else l.getD j 0 - l.getD (j-1) 0

/-- The gain part of the delta at index `j`. -/
def gainAt (l : List ℚ) (j : ℕ) : ℚ := max (deltaAt l j) 0

/-- The loss part of the delta at index `j`. -/
def lossAt (l : List ℚ) (j : ℕ) : ℚ := max (-(deltaAt l j)) 0

/-- Modelled from the spec: Wilder smoothing with period `p` of a per-index
series `g` (whose meaningful values start at index 1), seeded at index `p`
with the simple average of `g 1 .. g p`, undefined before that. -/
def wilderAvg (p : ℕ) (g : ℕ → ℚ) : ℕ → Option ℚ
  | 0 => none
  | i + 1 =>
    if i + 1 < p then none
    else if i + 1 = p then
      some ((((List.range p).map (fun j => g (j+1))).sum) / p)
    else (wilderAvg p g i).map (fun a => (a * ((p:ℚ) - 1) + g (i+1)) / p)

/-- Modelled from the spec: RSI(14) from Wilder-smoothed average gain and
loss, equal to 100 when the average loss is zero. -/
def rsiAt (l : List ℚ) (i : ℕ) : Option ℚ :=
  match wilderAvg 14 (gainAt l) i, wilderAvg 14 (lossAt l) i with
  | some ag, some al => some (if al = 0 then 100 else 100 - 100 / (1 + ag / al))
  | _, _ => none

/-- Modelled from the spec: the MACD line, EMA(12) minus EMA(26). -/
def macdAt (l : List ℚ) (i : ℕ) : Option ℚ :=
  match emaAt 12 l i, emaAt 26 l i with
  | some a, some b => some (a - b)
  | _, _ => none

/-- The defined values of the MACD line, in order (they start at index 25). -/
def macdLineVals (l : List ℚ) : List ℚ :=
  ((List.range l.length).map (macdAt l)).reduceOption

/-- Modelled from the spec: the MACD signal line, EMA(9) of the MACD line. -/
def macdSignalAt (l : List ℚ) (i : ℕ) : Option ℚ :=
  if i < 25 then none else emaAt 9 (macdLineVals l) (i - 25)

/-- Modelled from the spec: the MACD histogram, line minus signal. -/
def macdHistAt (l : List ℚ) (i : ℕ) : Option ℚ :=
  match macdAt l i, macdSignalAt l i with
  | some a, some b => some (a - b)
  | _, _ => none

/-- Modelled from the spec: the Bollinger middle band, SMA(20). -/
def bbMidAt (l : List ℚ) (i : ℕ) : Option ℚ := smaAt 20 l i

/-- Modelled from the spec: the upper Bollinger band, middle band plus two
standard deviations of the trailing 20 closes; the deviation function is a
parameter (see the file header). -/
def bbUpperAt (std : List ℚ → ℚ) (l : List ℚ) (i : ℕ) : Option ℚ :=
  (bbMidAt l i).map (fun m => m + 2 * std (lastWindow l i 20))

/-- Modelled from the spec: the lower Bollinger band. -/
def bbLowerAt (std : List ℚ → ℚ) (l : List ℚ) (i : ℕ) : Option ℚ :=
  (bbMidAt l i).map (fun m => m - 2 * std (lastWindow l i 20))

/-- Modelled from the spec: the Bollinger band width, (upper − lower) /
middle, undefined when the middle band is zero. -/
def bbWidthAt (std : List ℚ → ℚ) (l : List ℚ) (i : ℕ) : Option ℚ :=
  match bbUpperAt std l i, bbLowerAt std l i, bbMidAt l i with
  | some u, some lo, some m => if m = 0 then none else some ((u - lo) / m)
  | _, _, _ => none

/-- Modelled from the spec: on-balance volume, a running signed sum of
volume, seeded at bar 0 with that bar's volume. -/
def obvAt (closes vols : List ℚ) : ℕ → ℚ
  | 0 => vols.getD 0 0
  | i + 1 =>
    obvAt closes vols i +
      (if closes.getD i 0 < closes.getD (i+1) 0 then vols.getD (i+1) 0
       else if closes.getD (i+1) 0 < closes.getD i 0 then -(vols.getD (i+1) 0)
       else 0)

/-- Modelled from the spec: the true range at index `i` (high minus low at
the first bar, where no previous close exists). -/
def trAt (h lo c : List ℚ) (i : ℕ) : ℚ :=
  if i = 0 then h.getD 0 0 - lo.getD 0 0
  else
    max (h.getD i 0 - lo.getD i 0)
      (max |h.getD i 0 - c.getD (i-1) 0| |lo.getD i 0 - c.getD (i-1) 0|)

/-- Modelled from the spec: ATR(14), Wilder-smoothed true range. -/
def atrAt (h lo c : List ℚ) (i : ℕ) : Option ℚ := wilderAvg 14 (trAt h lo c) i

/-- Modelled from the spec: the positive directional movement at `j`. -/
def dmPlusAt (h lo : List ℚ) (j : ℕ) : ℚ :=
  if j = 0 then 0
  else
    let up := h.getD j 0 - h.getD (j-1) 0
    let down := lo.getD (j-1) 0 - lo.getD j 0
    if down < up ∧ 0 < up then up else 0

/-- Modelled from the spec: the negative directional movement at `j`. -/
def dmMinusAt (h lo : List ℚ) (j : ℕ) : ℚ :=
  if j = 0 then 0
  else
    let up := h.getD j 0 - h.getD (j-1) 0
    let down := lo.getD (j-1) 0 - lo.getD j 0
    if up < down ∧ 0 < down then down else 0

/-- Modelled from the spec: +DI, 100 times smoothed +DM over smoothed true
range (0 when the smoothed true range is zero). -/
def diPlusAt (h lo c : List ℚ) (i : ℕ) : Option ℚ :=
  match wilderAvg 14 (dmPlusAt h lo) i, wilderAvg 14 (trAt h lo c) i with
  | some d, some t => some (if t = 0 then 0 else 100 * d / t)
  | _, _ => none

/-- Modelled from the spec: −DI. -/
def diMinusAt (h lo c : List ℚ) (i : ℕ) : Option ℚ :=
  match wilderAvg 14 (dmMinusAt h lo) i, wilderAvg 14 (trAt h lo c) i with
  | some d, some t => some (if t = 0 then 0 else 100 * d / t)
  | _, _ => none

/-- Modelled from the spec: DX, 100·|+DI − −DI| / (+DI + −DI), 0 when the
denominator is zero. -/
def dxAt (h lo c : List ℚ) (i : ℕ) : Option ℚ :=
  match diPlusAt h lo c i, diMinusAt h lo c i with
  | some p, some m => some (if p + m = 0 then 0 else 100 * |p - m| / (p + m))
  | _, _ => none

/-- DX with default 0, for feeding the ADX smoothing. -/
def dxVal (h lo c : List ℚ) (i : ℕ) : ℚ := (dxAt h lo c i).getD 0

/-- Modelled from the spec: ADX(14), Wilder-smoothed DX, seeded with the
simple average of the first 14 defined DX values (indices 14..27). -/
def adxAt (h lo c : List ℚ) : ℕ → Option ℚ
  | 0 => none
  | i + 1 =>
    if i + 1 < 27 then none
    else if i + 1 = 27 then
      some ((((List.range 14).map (fun j => dxVal h lo c (14 + j))).sum) / 14)
    else (adxAt h lo c i).map (fun a => (a * 13 + dxVal h lo c (i+1)) / 14)

/-- Largest element of a list (0 for the empty list; used on nonempty
windows only). -/
def listMax : List ℚ → ℚ
  | [] => 0
  | x :: xs => xs.foldl max x

/-- Smallest element of a list. -/
def listMin : List ℚ → ℚ
  | [] => 0
  | x :: xs => xs.foldl min x

/-- Modelled from the spec: raw %K, 100·(close − lowest low over 14) /
(highest high over 14 − lowest low over 14), 0 when the range is zero. -/
def rawKAt (h lo c : List ℚ) (i : ℕ) : Option ℚ :=
  if i + 1 < 14 then none
  else
    let hh := listMax (lastWindow h i 14)
    let ll := listMin (lastWindow lo i 14)
    some (if hh - ll = 0 then 0 else 100 * (c.getD i 0 - ll) / (hh - ll))

/-- Modelled from the spec: the slow %K, a 3-bar simple moving average of
raw %K. -/
def stochKAt (h lo c : List ℚ) (i : ℕ) : Option ℚ :=
  if i + 1 < 16 then none
  else some (listMean ((List.range 3).map (fun j => (rawKAt h lo c (i - j)).getD 0)))

/-- Modelled from the spec: %D, a 3-bar simple moving average of the slow
%K. -/
def stochDAt (h lo c : List ℚ) (i : ℕ) : Option ℚ :=
  if i + 1 < 18 then none
  else some (listMean ((List.range 3).map (fun j => (stochKAt h lo c (i - j)).getD 0)))

/-- A bar whose every field is 0, the default of the (always in-bounds)
index accesses of `annotateSeries`. -/
def dummyBar : Bar :=
  { timestamp := 0, openPrice := 0, high := 0, low := 0, close := 0, volume := 0 }

/-- The annotated row at index `i`: the bar's own columns plus every
indicator column at `i` (the indicator formulas are modelled from the
spec, see above; `std` is the Bollinger deviation function). -/
def annotRowAt (std : List ℚ → ℚ) (bars : List Bar) (i : ℕ) : Row :=
  { timestamp := (bars.getD i dummyBar).timestamp,
    openPrice := (bars.getD i dummyBar).openPrice,
    high := (bars.getD i dummyBar).high,
    low := (bars.getD i dummyBar).low,
    close := (bars.getD i dummyBar).close,
    volume := (bars.getD i dummyBar).volume,
    sma20 := smaAt 20 (bars.map Bar.close) i,
    sma50 := smaAt 50 (bars.map Bar.close) i,
    sma200 := smaAt 200 (bars.map Bar.close) i,
    ema20 := emaAt 20 (bars.map Bar.close) i,
    rsi := rsiAt (bars.map Bar.close) i,
    macd := macdAt (bars.map Bar.close) i,
    macdSignal := macdSignalAt (bars.map Bar.close) i,
    macdHist := macdHistAt (bars.map Bar.close) i,
    bbUpper := bbUpperAt std (bars.map Bar.close) i,
    bbLower := bbLowerAt std (bars.map Bar.close) i,
    bbMid := bbMidAt (bars.map Bar.close) i,
    bbWidth := bbWidthAt std (bars.map Bar.close) i,
    obv := some (obvAt (bars.map Bar.close) (bars.map Bar.volume) i),
    adx := adxAt (bars.map Bar.high) (bars.map Bar.low) (bars.map Bar.close) i,
    stochK := stochKAt (bars.map Bar.high) (bars.map Bar.low) (bars.map Bar.close) i,
    stochD := stochDAt (bars.map Bar.high) (bars.map Bar.low) (bars.map Bar.close) i,
    atr := atrAt (bars.map Bar.high) (bars.map Bar.low) (bars.map Bar.close) i }

/-- Annotate every bar of the series with the indicator columns, in order
and without dropping bars. -/
def annotateSeries (std : List ℚ → ℚ) (bars : List Bar) : List Row :=
  (List.range bars.length).map (annotRowAt std bars)

/-- `calculate_technical_indicators`: the Indicator Engine.  Returns
`none` exactly when the input frame is missing or empty; otherwise it
annotates the series.  The source performs no other validation. -/
def calculate_technical_indicators (std : List ℚ → ℚ) (data : Option (List Bar)) :
    Option (List Row) :=
  match data with
  | none => none
  | some bars => if bars.isEmpty then none else some (annotateSeries std bars)

/-- The timestamps of the series are strictly ascending (the well-formed
series shape of the data model). -/
def ascendingTimestamps (bars : List Bar) : Prop :=
  (bars.map Bar.timestamp).Chain' (· < ·)

/-- `add_stock`: append the symbol to the tracked list when absent and
report success; report failure and change nothing when present. -/
def add_stock (symbol : String) (stocks : List String) : Bool × List String :=
  if symbol ∈ stocks then (false, stocks) else (true, stocks ++ [symbol])

/-- `remove_stock`: drop the first occurrence of the symbol from the
tracked list when present and report success; report failure and change
nothing when absent. -/
def remove_stock (symbol : String) (stocks : List String) : Bool × List String :=
  if symbol ∈ stocks then (true, stocks.erase symbol) else (false, stocks)

lemma sma20Rule_cnt (r : Row) : (sma20Rule r).2.2 = 1 := by
  unfold sma20Rule; split <;> rfl

lemma sma50Rule_cnt (r : Row) : (sma50Rule r).2.2 = 1 := by
  unfold sma50Rule; split <;> rfl

lemma sma200Rule_cnt (r : Row) : (sma200Rule r).2.2 = 1 := by
  unfold sma200Rule; split <;> rfl

lemma rsiRule_cnt (r : Row) : (rsiRule r).2.2 = 1 := by
  unfold rsiRule; split_ifs <;> rfl

lemma macdRule_cnt (r : Row) : (macdRule r).2.2 = 1 := by
  unfold macdRule; split <;> rfl

lemma bollingerRule_cnt (r : Row) : (bollingerRule r).2.2 = 1 := by
  unfold bollingerRule; dsimp only; split_ifs <;> rfl

lemma adxRule_cnt (r : Row) : (adxRule r).2.2 = 0 := by
  unfold adxRule; split_ifs <;> rfl

lemma stochRule_cnt (r : Row) : (stochRule r).2.2 = 1 := by
  unfold stochRule; dsimp only; split_ifs <;> rfl

lemma volumeRule_cnt (df : List Row) (r : Row) : (volumeRule df r).2.2 = 1 := by
  unfold volumeRule; dsimp only; split_ifs <;> rfl

lemma crossRule_cnt_le (p : Option Row) (r : Row) : (crossRule p r).2.2 ≤ 1 := by
  unfold crossRule
  rcases p with _ | p
  · exact Nat.zero_le 1
  · dsimp only; split
    · exact le_refl 1
    · split
      · exact le_refl 1
      · exact Nat.zero_le 1

lemma macdCrossRule_cnt_le (p : Option Row) (r : Row) : (macdCrossRule p r).2.2 ≤ 1 := by
  unfold macdCrossRule
  rcases p with _ | p
  · exact Nat.zero_le 1
  · dsimp only; split
    · exact le_refl 1
    · split
      · exact le_refl 1
      · exact Nat.zero_le 1

lemma sma20Rule_bounds (r : Row) :
    -(1/2) ≤ (sma20Rule r).2.1 ∧ (sma20Rule r).2.1 ≤ 1/2 := by
  unfold sma20Rule; split <;> norm_num

lemma sma50Rule_bounds (r : Row) :
    -1 ≤ (sma50Rule r).2.1 ∧ (sma50Rule r).2.1 ≤ 1 := by
  unfold sma50Rule; split <;> norm_num

lemma sma200Rule_bounds (r : Row) :
    -(3/2) ≤ (sma200Rule r).2.1 ∧ (sma200Rule r).2.1 ≤ 3/2 := by
  unfold sma200Rule; split <;> norm_num

lemma rsiRule_bounds (r : Row) :
    -(3/2) ≤ (rsiRule r).2.1 ∧ (rsiRule r).2.1 ≤ 3/2 := by
  unfold rsiRule; split
  · norm_num
  · split <;> norm_num

lemma macdRule_bounds (r : Row) :
    -1 ≤ (macdRule r).2.1 ∧ (macdRule r).2.1 ≤ 1 := by
  unfold macdRule; split <;> norm_num

lemma bollingerRule_bounds (r : Row) :
    -1 ≤ (bollingerRule r).2.1 ∧ (bollingerRule r).2.1 ≤ 1 := by
  unfold bollingerRule; dsimp only; split
  · norm_num
  · split <;> norm_num

lemma adxRule_score (r : Row) : (adxRule r).2.1 = 0 := by
  unfold adxRule; split_ifs <;> rfl

lemma stochRule_bounds (r : Row) :
    -1 ≤ (stochRule r).2.1 ∧ (stochRule r).2.1 ≤ 1 := by
  unfold stochRule; dsimp only; split
  · norm_num
  · split <;> norm_num

lemma volumeRule_bounds (df : List Row) (r : Row) :
    -(1/2) ≤ (volumeRule df r).2.1 ∧ (volumeRule df r).2.1 ≤ 1/2 := by
  unfold volumeRule; dsimp only; split_ifs <;> norm_num

lemma crossRule_bounds (p : Option Row) (r : Row) :
    -(2 * ((crossRule p r).2.2 : ℚ)) ≤ (crossRule p r).2.1 ∧
      (crossRule p r).2.1 ≤ 2 * ((crossRule p r).2.2 : ℚ) := by
  unfold crossRule
  rcases p with _ | p
  · norm_num
  · dsimp only; split
    · norm_num
    · split <;> norm_num

lemma macdCrossRule_bounds (p : Option Row) (r : Row) :
    -((3/2) * ((macdCrossRule p r).2.2 : ℚ)) ≤ (macdCrossRule p r).2.1 ∧
      (macdCrossRule p r).2.1 ≤ (3/2) * ((macdCrossRule p r).2.2 : ℚ) := by
  unfold macdCrossRule
  rcases p with _ | p
  · norm_num
  · dsimp only; split
    · norm_num
    · split <;> norm_num

lemma signalCount_eq (df : List Row) : signalCountOf df = 8 + crossFiresOf df := by
  unfold signalCountOf rulesOf crossFiresOf
  simp only [List.map_cons, List.map_nil, List.sum_cons, List.sum_nil,
    sma20Rule_cnt, sma50Rule_cnt, sma200Rule_cnt, rsiRule_cnt, macdRule_cnt,
    bollingerRule_cnt, adxRule_cnt, stochRule_cnt, volumeRule_cnt]
  omega

lemma score_bounds (df : List Row) :
    |scoreOf df| ≤ 8 + 2 * ((crossRule (prevOf df) (currentOf df)).2.2 : ℚ)
      + (3/2) * ((macdCrossRule (prevOf df) (currentOf df)).2.2 : ℚ) := by
  have h1 := sma20Rule_bounds (currentOf df)
  have h2 := sma50Rule_bounds (currentOf df)
  have h3 := sma200Rule_bounds (currentOf df)
  have h4 := crossRule_bounds (prevOf df) (currentOf df)
  have h5 := rsiRule_bounds (currentOf df)
  have h6 := macdRule_bounds (currentOf df)
  have h7 := macdCrossRule_bounds (prevOf df) (currentOf df)
  have h8 := bollingerRule_bounds (currentOf df)
  have h9 := adxRule_score (currentOf df)
  have h10 := stochRule_bounds (currentOf df)
  have h11 := volumeRule_bounds df (currentOf df)
  unfold scoreOf rulesOf
  simp only [List.map_cons, List.map_nil, List.sum_cons, List.sum_nil, add_zero]
  rw [abs_le]
  constructor
  · linarith [h1.1, h2.1, h3.1, h4.1, h5.1, h6.1, h7.1, h8.1, h10.1, h11.1]
  · linarith [h1.2, h2.2, h3.2, h4.2, h5.2, h6.2, h7.2, h8.2, h10.2, h11.2]

lemma preClamp_bound (df : List Row) : |preClampOf df| ≤ 23/15 := by
  have hc1 : (crossRule (prevOf df) (currentOf df)).2.2 ≤ 1 :=
    crossRule_cnt_le _ _
  have hc2 : (macdCrossRule (prevOf df) (currentOf df)).2.2 ≤ 1 :=
    macdCrossRule_cnt_le _ _
  have hc1q : ((crossRule (prevOf df) (currentOf df)).2.2 : ℚ) ≤ 1 := by
    exact_mod_cast hc1
  have hc2q : ((macdCrossRule (prevOf df) (currentOf df)).2.2 : ℚ) ≤ 1 := by
    exact_mod_cast hc2
  have hc1n : (0:ℚ) ≤ ((crossRule (prevOf df) (currentOf df)).2.2 : ℚ) := by
    positivity
  have hc2n : (0:ℚ) ≤ ((macdCrossRule (prevOf df) (currentOf df)).2.2 : ℚ) := by
    positivity
  have hs := score_bounds df
  have hcq : ((signalCountOf df : ℚ)) =
      8 + ((crossRule (prevOf df) (currentOf df)).2.2 : ℚ)
        + ((macdCrossRule (prevOf df) (currentOf df)).2.2 : ℚ) := by
    rw [signalCount_eq]
    unfold crossFiresOf
    push_cast
    ring
  have hd : (0:ℚ) < ((signalCountOf df : ℚ)) * (3/4) := by
    rw [hcq]; linarith
  unfold preClampOf
  rw [abs_div, abs_of_pos hd, div_le_iff₀ hd, hcq]
  calc |scoreOf df| ≤ 8 + 2 * ((crossRule (prevOf df) (currentOf df)).2.2 : ℚ)
        + (3/2) * ((macdCrossRule (prevOf df) (currentOf df)).2.2 : ℚ) := hs
    _ ≤ 23/15 * ((8 + ((crossRule (prevOf df) (currentOf df)).2.2 : ℚ)
        + ((macdCrossRule (prevOf df) (currentOf df)).2.2 : ℚ)) * (3/4)) := by
        linarith

lemma signalCount_pos (df : List Row) : 0 < signalCountOf df := by
  rw [signalCount_eq]; omega

lemma normalized_eq_preClamp (df : List Row) :
    normalizedScoreOf df = preClampOf df := by
  have hb := preClamp_bound df
  rw [abs_le] at hb
  unfold normalizedScoreOf
  rw [if_pos (signalCount_pos df), min_eq_left (by linarith [hb.2]),
    max_eq_left (by linarith [hb.1])]

lemma roundHalfEven_int (z : ℤ) : roundHalfEven (z : ℚ) = z := by
  unfold roundHalfEven
  simp only [Int.floor_intCast, sub_self]
  norm_num

lemma round2_eq_self (x : ℚ) (z : ℤ) (h : 100 * x = (z : ℚ)) : round2 x = x := by
  unfold round2
  rw [h, roundHalfEven_int, ← h]
  ring

lemma roundHalfEven_le (x : ℚ) : (roundHalfEven x : ℚ) ≤ x + 1 := by
  have h1 := Int.floor_le x
  have h2 := Int.lt_floor_add_one x
  unfold roundHalfEven
  dsimp only
  split_ifs <;> push_cast <;> linarith

lemma le_roundHalfEven (x : ℚ) : x - 1 ≤ (roundHalfEven x : ℚ) := by
  have h1 := Int.floor_le x
  have h2 := Int.lt_floor_add_one x
  unfold roundHalfEven
  dsimp only
  split_ifs <;> push_cast <;> linarith

lemma round2_abs_le (x : ℚ) (h : |x| ≤ 9/5) : |round2 x| ≤ 2 := by
  rw [abs_le] at h
  have h1 := roundHalfEven_le (100 * x)
  have h2 := le_roundHalfEven (100 * x)
  unfold round2
  rw [abs_le]
  constructor
  · rw [le_div_iff₀ (by norm_num : (0:ℚ) < 100)]
    linarith
  · rw [div_le_iff₀ (by norm_num : (0:ℚ) < 100)]
    linarith

/-- C3 counterexample: the input the claim asserts to exist does not: no
annotated series whatsoever gives the Signal Scorer a pre-clamp normalized
score outside [−2, 2]. -/
theorem no_input_exercises_clamp : ¬ ∃ df : List Row, 2 < |preClampOf df| := by
  rintro ⟨df, h⟩
  have hb := preClamp_bound df
  linarith

/-- C3 (amended): for every annotated series the Signal Scorer's pre-clamp
normalized score `score / (count × 0.75)` already lies inside [−2, 2], so
the clamp never changes the value: the normalized score always equals the
un-clamped quotient. -/
theorem clamp_never_changes_value (df : List Row) :
    -2 ≤ preClampOf df ∧ preClampOf df ≤ 2 ∧
      max (min (preClampOf df) 2) (-2) = preClampOf df ∧
      normalizedScoreOf df = preClampOf df := by
  have hb := preClamp_bound df
  rw [abs_le] at hb
  refine ⟨by linarith [hb.1], by linarith [hb.2], ?_, normalized_eq_preClamp df⟩
  rw [min_eq_left (by linarith [hb.2]), max_eq_left (by linarith [hb.1])]

/-- The normalization count as the claim words it: 9 always-counted rules
plus one per crossover rule that fired. -/
def claimSignalCount (df : List Row) : ℕ := 9 + crossFiresOf df

/-- The claim's normalized score: `clamp(score / (claimSignalCount × 0.75),
−2, 2)`. -/
def claimNormalized (df : List Row) : ℚ :=
  max (min (scoreOf df / ((claimSignalCount df : ℚ) * (3/4))) 2) (-2)

/-- A concrete one-row annotated frame: close above all three moving
averages, RSI oversold, MACD above its signal line, Bollinger position 0,
both stochastics oversold, ADX above 25, volume ratio 1. -/
def exRow : Row :=
  { timestamp := 0, openPrice := 100, high := 101, low := 99, close := 100,
    volume := 1000, sma20 := some 50, sma50 := some 50, sma200 := some 50,
    ema20 := some 50, rsi := some 25, macd := some 1, macdSignal := some 0,
    macdHist := some 1, bbUpper := some 300, bbLower := some 100,
    bbMid := some 200, bbWidth := some 1, obv := some 1000, adx := some 30,
    stochK := some 10, stochD := some 10, atr := some 2 }

/-- The one-row frame holding `exRow`. -/
def exDf : List Row := [exRow]

lemma currentOf_exDf : currentOf exDf = exRow := rfl

lemma prevOf_exDf : prevOf exDf = none := rfl

lemma round2_0 : round2 0 = 0 := round2_eq_self 0 0 (by norm_num)

lemma round2_1 : round2 1 = 1 := round2_eq_self 1 100 (by norm_num)

lemma round2_25 : round2 25 = 25 := round2_eq_self 25 2500 (by norm_num)

lemma round2_30 : round2 30 = 30 := round2_eq_self 30 3000 (by norm_num)

lemma round2_10 : round2 10 = 10 := round2_eq_self 10 1000 (by norm_num)

lemma round2_50 : round2 50 = 50 := round2_eq_self 50 5000 (by norm_num)

lemma round2_100 : round2 100 = 100 := round2_eq_self 100 10000 (by norm_num)

lemma round2_q54 : round2 (5/4) = 5/4 := round2_eq_self (5/4) 125 (by norm_num)

lemma sma20Rule_ex :
    sma20Rule exRow = ([("sma20", "bullish", .num (some 50))], 1/2, 1) := by
  norm_num [sma20Rule, nanGT, exRow, round2_50]

lemma sma50Rule_ex :
    sma50Rule exRow = ([("sma50", "bullish", .num (some 50))], 1, 1) := by
  norm_num [sma50Rule, nanGT, exRow, round2_50]

lemma sma200Rule_ex :
    sma200Rule exRow = ([("sma200", "bullish", .num (some 50))], 3/2, 1) := by
  norm_num [sma200Rule, nanGT, exRow, round2_50]

lemma rsiRule_ex :
    rsiRule exRow = ([("rsi", "oversold", .num (some 25))], 3/2, 1) := by
  norm_num [rsiRule, nanLT, exRow, round2_25]

lemma macdRule_ex :
    macdRule exRow = ([("macd", "bullish", .num (some 1))], 1, 1) := by
  norm_num [macdRule, nanGT, exRow, round2_1]

lemma bb_position_ex : bb_position exRow = 0 := by
  norm_num [bb_position, exRow]

lemma bollingerRule_ex :
    bollingerRule exRow = ([("bollinger", "oversold", .bands 0 (some 1))], 1, 1) := by
  unfold bollingerRule
  rw [bb_position_ex]
  norm_num [exRow, round2_0, round2_1]

lemma adxRule_ex :
    adxRule exRow = ([("adx", "strong_trend", .num (some 30))], 0, 0) := by
  norm_num [adxRule, nanGT, exRow, round2_30]

lemma stochRule_ex :
    stochRule exRow = ([("stochastic", "oversold", .kd (some 10) (some 10))], 1, 1) := by
  norm_num [stochRule, nanLT, exRow, round2_10]

lemma tailMeanVolume_exDf : tailMeanVolume exDf = 1000 := by
  norm_num [tailMeanVolume, exDf, exRow]

lemma volumeRule_ex :
    volumeRule exDf exRow = ([("volume", "neutral", .vol 1000 1)], 0, 1) := by
  unfold volumeRule
  rw [tailMeanVolume_exDf]
  norm_num [exRow, round2_1, Int.floor_intCast]

lemma rulesOf_exDf :
    rulesOf exDf =
      [([("sma20", "bullish", .num (some 50))], 1/2, 1),
       ([("sma50", "bullish", .num (some 50))], 1, 1),
       ([("sma200", "bullish", .num (some 50))], 3/2, 1),
       ([], 0, 0),
       ([("rsi", "oversold", .num (some 25))], 3/2, 1),
       ([("macd", "bullish", .num (some 1))], 1, 1),
       ([], 0, 0),
       ([("bollinger", "oversold", .bands 0 (some 1))], 1, 1),
       ([("adx", "strong_trend", .num (some 30))], 0, 0),
       ([("stochastic", "oversold", .kd (some 10) (some 10))], 1, 1),
       ([("volume", "neutral", .vol 1000 1)], 0, 1)] := by
  unfold rulesOf
  dsimp only
  rw [currentOf_exDf, prevOf_exDf, sma20Rule_ex, sma50Rule_ex, sma200Rule_ex,
    rsiRule_ex, macdRule_ex, bollingerRule_ex, adxRule_ex, stochRule_ex,
    volumeRule_ex]
  rfl

lemma scoreOf_exDf : scoreOf exDf = 15/2 := by
  rw [scoreOf, rulesOf_exDf]
  norm_num

lemma crossFiresOf_exDf : crossFiresOf exDf = 0 := by
  rw [crossFiresOf, currentOf_exDf, prevOf_exDf]
  rfl

lemma signalCountOf_exDf : signalCountOf exDf = 8 := by
  rw [signalCount_eq, crossFiresOf_exDf]

lemma preClampOf_exDf : preClampOf exDf = 5/4 := by
  rw [preClampOf, scoreOf_exDf, signalCountOf_exDf]
  norm_num

lemma normalizedScoreOf_exDf : normalizedScoreOf exDf = 5/4 := by
  rw [normalized_eq_preClamp, preClampOf_exDf]

/-- C1 counterexample: on the concrete one-row frame `exDf` the Signal
Scorer normalizes by a count of 8, not the 9 the claim states, so the
normalized score differs from the claim's formula (5/4 versus 10/9). -/
theorem normalization_count_cex :
    normalizedScoreOf exDf ≠ claimNormalized exDf := by
  rw [normalizedScoreOf_exDf, claimNormalized, claimSignalCount,
    crossFiresOf_exDf, scoreOf_exDf]
  norm_num

/-- C1 (amended): the Signal Scorer's normalized score equals
`clamp(score / (count × 0.75), −2, 2)` where `count` is 8 always-counted
rules (the ADX rule is informational and never counted) plus 1 for each
crossover rule that fired, so `count` is 8, 9, or 10. -/
theorem normalization_count_amended (df : List Row) :
    signalCountOf df = 8 + crossFiresOf df ∧ crossFiresOf df ≤ 2 ∧
      normalizedScoreOf df =
        max (min (scoreOf df / (((8 + crossFiresOf df : ℕ) : ℚ) * (3/4))) 2) (-2) := by
  refine ⟨signalCount_eq df, ?_, ?_⟩
  · unfold crossFiresOf
    have h1 := crossRule_cnt_le (prevOf df) (currentOf df)
    have h2 := macdCrossRule_cnt_le (prevOf df) (currentOf df)
    omega
  · rw [← signalCount_eq]
    unfold normalizedScoreOf preClampOf
    rw [if_pos (signalCount_pos df)]

/-- The Signal that `generate_signals` produces on `exDf`. -/
def exSignal : Signal :=
  { symbol := "AAPL", price := 100, change_pct := 0,
    indicators :=
      [("sma20", "bullish", .num (some 50)), ("sma50", "bullish", .num (some 50)),
       ("sma200", "bullish", .num (some 50)), ("rsi", "oversold", .num (some 25)),
       ("macd", "bullish", .num (some 1)), ("bollinger", "oversold", .bands 0 (some 1)),
       ("adx", "strong_trend", .num (some 30)),
       ("stochastic", "oversold", .kd (some 10) (some 10)),
       ("volume", "neutral", .vol 1000 1)],
    overall_signal := "buy", signal_strength := 5/4 }

lemma entriesOf_exDf : entriesOf exDf = exSignal.indicators := by
  rw [entriesOf, rulesOf_exDf]
  rfl

lemma generate_signals_exDf : generate_signals exDf "AAPL" = some exSignal := by
  unfold generate_signals
  have hne : exDf.isEmpty = false := rfl
  rw [hne]
  dsimp only [Bool.false_eq_true, if_false]
  rw [currentOf_exDf, prevOf_exDf, entriesOf_exDf, normalizedScoreOf_exDf]
  norm_num [exRow, exSignal, round2_100, round2_q54, overallSignalOf]

lemma generate_signals_some (df : List Row) (sym : String) (s : Signal)
    (h : generate_signals df sym = some s) :
    s.change_pct = (match prevOf df with
      | some p => round2 (((currentOf df).close / p.close - 1) * 100)
      | none => 0) ∧
    s.indicators = entriesOf df ∧
    s.overall_signal = overallSignalOf (normalizedScoreOf df) ∧
    s.signal_strength = round2 (normalizedScoreOf df) := by
  unfold generate_signals at h
  split at h
  · exact absurd h (by simp)
  · dsimp only at h
    injection h with h
    subst h
    exact ⟨rfl, rfl, rfl, rfl⟩

lemma normalized_abs_le (df : List Row) : |normalizedScoreOf df| ≤ 9/5 := by
  rw [normalized_eq_preClamp]
  have := preClamp_bound df
  linarith [this]

/-- C4: every Signal the Scorer produces has `signal_strength` in the
interval [−2, 2] and equal to the normalized score rounded to two
decimals. -/
theorem signal_strength_bounded (df : List Row) (sym : String) (s : Signal)
    (h : generate_signals df sym = some s) :
    -2 ≤ s.signal_strength ∧ s.signal_strength ≤ 2 ∧
      s.signal_strength = round2 (normalizedScoreOf df) := by
  have hs := (generate_signals_some df sym s h).2.2.2
  have hb := round2_abs_le (normalizedScoreOf df) (normalized_abs_le df)
  rw [abs_le] at hb
  exact ⟨by rw [hs]; exact hb.1, by rw [hs]; exact hb.2, hs⟩

/-- C4 witness: the bound and the rounding identity hold on the concrete
frame `exDf`. -/
theorem signal_strength_bounded_witness :
    -2 ≤ exSignal.signal_strength ∧ exSignal.signal_strength ≤ 2 ∧
      exSignal.signal_strength = round2 (normalizedScoreOf exDf) :=
  signal_strength_bounded exDf "AAPL" exSignal generate_signals_exDf

/-- C5: the overall label is determined from the normalized score by the
threshold chain: strong_buy on (1.5, 2], buy on (0.5, 1.5], neutral on
(−0.5, 0.5], sell on (−1.5, −0.5], strong_sell on [−2, −1.5]. -/
theorem overall_label_thresholds (df : List Row) (sym : String) (s : Signal)
    (h : generate_signals df sym = some s) :
    (-2 ≤ normalizedScoreOf df ∧ normalizedScoreOf df ≤ 2) ∧
    (3/2 < normalizedScoreOf df → s.overall_signal = "strong_buy") ∧
    (1/2 < normalizedScoreOf df ∧ normalizedScoreOf df ≤ 3/2 →
      s.overall_signal = "buy") ∧
    (-(1/2) < normalizedScoreOf df ∧ normalizedScoreOf df ≤ 1/2 →
      s.overall_signal = "neutral") ∧
    (-(3/2) < normalizedScoreOf df ∧ normalizedScoreOf df ≤ -(1/2) →
      s.overall_signal = "sell") ∧
    (normalizedScoreOf df ≤ -(3/2) → s.overall_signal = "strong_sell") := by
  have hov := (generate_signals_some df sym s h).2.2.1
  have hb := normalized_abs_le df
  rw [abs_le] at hb
  refine ⟨⟨by linarith [hb.1], by linarith [hb.2]⟩, ?_, ?_, ?_, ?_, ?_⟩ <;>
    · intro hc
      rw [hov]
      unfold overallSignalOf
      split_ifs <;> first | rfl | (exfalso; rcases hc with ⟨hc1, hc2⟩ <;> linarith) |
        (exfalso; linarith)

/-- C5 witness: the thresholds hold on the concrete frame `exDf`, whose
normalized score 5/4 yields the label "buy". -/
theorem overall_label_thresholds_witness :
    ((-2 ≤ normalizedScoreOf exDf ∧ normalizedScoreOf exDf ≤ 2) ∧
    (3/2 < normalizedScoreOf exDf → exSignal.overall_signal = "strong_buy") ∧
    (1/2 < normalizedScoreOf exDf ∧ normalizedScoreOf exDf ≤ 3/2 →
      exSignal.overall_signal = "buy") ∧
    (-(1/2) < normalizedScoreOf exDf ∧ normalizedScoreOf exDf ≤ 1/2 →
      exSignal.overall_signal = "neutral") ∧
    (-(3/2) < normalizedScoreOf exDf ∧ normalizedScoreOf exDf ≤ -(1/2) →
      exSignal.overall_signal = "sell") ∧
    (normalizedScoreOf exDf ≤ -(3/2) → exSignal.overall_signal = "strong_sell")) ∧
    exSignal.overall_signal = "buy" :=
  ⟨overall_label_thresholds exDf "AAPL" exSignal generate_signals_exDf, rfl⟩

lemma sma20Rule_names (r : Row) : (sma20Rule r).1.map Prod.fst = ["sma20"] := by
  unfold sma20Rule; split_ifs <;> rfl

lemma sma50Rule_names (r : Row) : (sma50Rule r).1.map Prod.fst = ["sma50"] := by
  unfold sma50Rule; split_ifs <;> rfl

lemma sma200Rule_names (r : Row) : (sma200Rule r).1.map Prod.fst = ["sma200"] := by
  unfold sma200Rule; split_ifs <;> rfl

lemma rsiRule_names (r : Row) : (rsiRule r).1.map Prod.fst = ["rsi"] := by
  unfold rsiRule; split_ifs <;> rfl

lemma macdRule_names (r : Row) : (macdRule r).1.map Prod.fst = ["macd"] := by
  unfold macdRule; split_ifs <;> rfl

lemma bollingerRule_names (r : Row) :
    (bollingerRule r).1.map Prod.fst = ["bollinger"] := by
  unfold bollingerRule; dsimp only; split_ifs <;> rfl

lemma adxRule_names (r : Row) : (adxRule r).1.map Prod.fst = ["adx"] := by
  unfold adxRule; split_ifs <;> rfl

lemma stochRule_names (r : Row) :
    (stochRule r).1.map Prod.fst = ["stochastic"] := by
  unfold stochRule; dsimp only; split_ifs <;> rfl

lemma volumeRule_names (df : List Row) (r : Row) :
    (volumeRule df r).1.map Prod.fst = ["volume"] := by
  unfold volumeRule; dsimp only; split_ifs <;> rfl

lemma crossRule_names_cases (p : Option Row) (r : Row) :
    (crossRule p r).1.map Prod.fst = [] ∨
      (crossRule p r).1.map Prod.fst = ["golden_cross"] ∨
      (crossRule p r).1.map Prod.fst = ["death_cross"] := by
  unfold crossRule
  rcases p with _ | p
  · exact Or.inl rfl
  · dsimp only; split_ifs
    · exact Or.inr (Or.inl rfl)
    · exact Or.inr (Or.inr rfl)
    · exact Or.inl rfl

lemma macdCrossRule_names_cases (p : Option Row) (r : Row) :
    (macdCrossRule p r).1.map Prod.fst = [] ∨
      (macdCrossRule p r).1.map Prod.fst = ["macd_crossover"] := by
  unfold macdCrossRule
  rcases p with _ | p
  · exact Or.inl rfl
  · dsimp only; split_ifs
    · exact Or.inr rfl
    · exact Or.inr rfl
    · exact Or.inl rfl

lemma entriesOf_decomp (df : List Row) :
    entriesOf df =
      (sma20Rule (currentOf df)).1 ++ ((sma50Rule (currentOf df)).1 ++
      ((sma200Rule (currentOf df)).1 ++ ((crossRule (prevOf df) (currentOf df)).1 ++
      ((rsiRule (currentOf df)).1 ++ ((macdRule (currentOf df)).1 ++
      ((macdCrossRule (prevOf df) (currentOf df)).1 ++
      ((bollingerRule (currentOf df)).1 ++ ((adxRule (currentOf df)).1 ++
      ((stochRule (currentOf df)).1 ++
      (volumeRule df (currentOf df)).1))))))))) := by
  unfold entriesOf rulesOf
  dsimp only
  simp [List.flatten_cons, List.flatten_nil]

lemma prevOf_single (df : List Row) (h : df.length = 1) : prevOf df = none := by
  unfold prevOf
  rw [if_neg]
  omega

lemma names_no_prev (df : List Row) (hp : prevOf df = none) :
    (entriesOf df).map Prod.fst =
      ["sma20", "sma50", "sma200", "rsi", "macd", "bollinger", "adx",
       "stochastic", "volume"] := by
  rw [entriesOf_decomp, hp]
  simp [List.map_append, sma20Rule_names, sma50Rule_names, sma200Rule_names,
    rsiRule_names, macdRule_names, bollingerRule_names, adxRule_names,
    stochRule_names, volumeRule_names, crossRule, macdCrossRule]

/-- C7: on a one-bar frame the Signal Scorer degrades gracefully: the
previous bar is treated as absent, the Signal reports `change_pct = 0`,
and no crossover sub-signal (golden_cross, death_cross, macd_crossover)
appears in the Signal's mapping. -/
theorem single_bar_degrades (df : List Row) (sym : String) (s : Signal)
    (hlen : df.length = 1) (h : generate_signals df sym = some s) :
    prevOf df = none ∧ s.change_pct = 0 ∧
      "golden_cross" ∉ s.indicators.map Prod.fst ∧
      "death_cross" ∉ s.indicators.map Prod.fst ∧
      "macd_crossover" ∉ s.indicators.map Prod.fst := by
  have hp := prevOf_single df hlen
  obtain ⟨hch, hind, -, -⟩ := generate_signals_some df sym s h
  refine ⟨hp, ?_, ?_, ?_, ?_⟩
  · rw [hch, hp]
  · rw [hind, names_no_prev df hp]
    simp
  · rw [hind, names_no_prev df hp]
    simp
  · rw [hind, names_no_prev df hp]
    simp

/-- C7 witness: on the concrete one-row frame `exDf` the produced Signal
has `change_pct = 0` and contains no crossover entry. -/
theorem single_bar_degrades_witness :
    exDf.length = 1 ∧
      (prevOf exDf = none ∧ exSignal.change_pct = 0 ∧
        "golden_cross" ∉ exSignal.indicators.map Prod.fst ∧
        "death_cross" ∉ exSignal.indicators.map Prod.fst ∧
        "macd_crossover" ∉ exSignal.indicators.map Prod.fst) :=
  ⟨rfl, single_bar_degrades exDf "AAPL" exSignal rfl generate_signals_exDf⟩

/-- C8: the golden-cross and death-cross rules are mutually exclusive: no
Signal's mapping ever contains both entries. -/
theorem golden_death_exclusive (df : List Row) (sym : String) (s : Signal)
    (h : generate_signals df sym = some s) :
    ¬ ("golden_cross" ∈ s.indicators.map Prod.fst ∧
       "death_cross" ∈ s.indicators.map Prod.fst) := by
  obtain ⟨-, hind, -, -⟩ := generate_signals_some df sym s h
  rintro ⟨hg, hd⟩
  rw [hind, entriesOf_decomp] at hg hd
  rcases crossRule_names_cases (prevOf df) (currentOf df) with hc | hc | hc <;>
    rcases macdCrossRule_names_cases (prevOf df) (currentOf df) with hm | hm <;>
      simp only [List.map_append, List.mem_append, sma20Rule_names,
        sma50Rule_names, sma200Rule_names, rsiRule_names, macdRule_names,
        bollingerRule_names, adxRule_names, stochRule_names, volumeRule_names,
        hc, hm] at hg hd <;>
    simp at hg hd

/-- C8 witness: on the concrete frame `exDf` the produced Signal does not
contain both crossover entries. -/
theorem golden_death_exclusive_witness :
    ¬ ("golden_cross" ∈ exSignal.indicators.map Prod.fst ∧
       "death_cross" ∈ exSignal.indicators.map Prod.fst) :=
  golden_death_exclusive exDf "AAPL" exSignal generate_signals_exDf

lemma round2_half : round2 (1/2) = 1/2 := round2_eq_self (1/2) 50 (by norm_num)

lemma round2_neg23 : round2 (-(2/3)) = -(67/100) := by
  unfold round2 roundHalfEven
  dsimp only
  rw [show (100:ℚ) * -(2/3) = -(200/3) by norm_num]
  rw [show ⌊(-(200/3) : ℚ)⌋ = -67 by rw [Int.floor_eq_iff]; norm_num]
  norm_num

lemma sma20Rule_none (r : Row) (h : r.sma20 = none) :
    sma20Rule r = ([("sma20", "bearish", .num none)], -(1/2), 1) := by
  unfold sma20Rule
  rw [h]
  rfl

lemma sma50Rule_none (r : Row) (h : r.sma50 = none) :
    sma50Rule r = ([("sma50", "bearish", .num none)], -1, 1) := by
  unfold sma50Rule
  rw [h]
  rfl

lemma sma200Rule_none (r : Row) (h : r.sma200 = none) :
    sma200Rule r = ([("sma200", "bearish", .num none)], -(3/2), 1) := by
  unfold sma200Rule
  rw [h]
  rfl

lemma rsiRule_none (r : Row) (h : r.rsi = none) :
    rsiRule r = ([("rsi", "neutral", .num none)], 0, 1) := by
  unfold rsiRule
  rw [h]
  rfl

/-- C10: the Signal Scorer does not skip rules over undefined indicator
values: a close-versus-SMA comparison against an undefined average takes
the else branch and emits a bearish sub-signal with the rule's full
negative score delta, an undefined RSI yields a neutral sub-signal, and
all of these rules still add to the normalization denominator (which is
always 8 plus the fired crossovers). -/
theorem undefined_indicator_rules_count (df : List Row) (sym : String)
    (s : Signal) (h : generate_signals df sym = some s) :
    ((currentOf df).sma20 = none →
      ("sma20", "bearish", EntryVal.num none) ∈ s.indicators ∧
      (sma20Rule (currentOf df)).2.1 = -(1/2) ∧
      (sma20Rule (currentOf df)).2.2 = 1) ∧
    ((currentOf df).sma50 = none →
      ("sma50", "bearish", EntryVal.num none) ∈ s.indicators ∧
      (sma50Rule (currentOf df)).2.1 = -1 ∧
      (sma50Rule (currentOf df)).2.2 = 1) ∧
    ((currentOf df).sma200 = none →
      ("sma200", "bearish", EntryVal.num none) ∈ s.indicators ∧
      (sma200Rule (currentOf df)).2.1 = -(3/2) ∧
      (sma200Rule (currentOf df)).2.2 = 1) ∧
    ((currentOf df).rsi = none →
      ("rsi", "neutral", EntryVal.num none) ∈ s.indicators ∧
      (rsiRule (currentOf df)).2.1 = 0 ∧
      (rsiRule (currentOf df)).2.2 = 1) ∧
    signalCountOf df = 8 + crossFiresOf df := by
  obtain ⟨-, hind, -, -⟩ := generate_signals_some df sym s h
  refine ⟨fun hn => ?_, fun hn => ?_, fun hn => ?_, fun hn => ?_,
    signalCount_eq df⟩
  · rw [hind, entriesOf_decomp, sma20Rule_none _ hn]
    exact ⟨by simp, rfl, rfl⟩
  · rw [hind, entriesOf_decomp, sma50Rule_none _ hn]
    exact ⟨by simp, rfl, rfl⟩
  · rw [hind, entriesOf_decomp, sma200Rule_none _ hn]
    exact ⟨by simp, rfl, rfl⟩
  · rw [hind, entriesOf_decomp, rsiRule_none _ hn]
    exact ⟨by simp, rfl, rfl⟩

/-- The one-row frame whose every indicator cell is NaN. -/
def exDfN : List Row := [dummyRow]

/-- The Signal that `generate_signals` produces on `exDfN`. -/
def exSignalN : Signal :=
  { symbol := "MSFT", price := 0, change_pct := 0,
    indicators :=
      [("sma20", "bearish", .num none), ("sma50", "bearish", .num none),
       ("sma200", "bearish", .num none), ("rsi", "neutral", .num none),
       ("macd", "bearish", .num none), ("bollinger", "neutral", .bands (1/2) none),
       ("adx", "neutral", .num none), ("stochastic", "neutral", .kd none none),
       ("volume", "neutral", .vol 0 1)],
    overall_signal := "sell", signal_strength := -(67/100) }

lemma currentOf_exDfN : currentOf exDfN = dummyRow := rfl

lemma prevOf_exDfN : prevOf exDfN = none := rfl

lemma bollingerRule_dummy :
    bollingerRule dummyRow = ([("bollinger", "neutral", .bands (1/2) none)], 0, 1) := by
  unfold bollingerRule
  rw [show bb_position dummyRow = 1/2 from rfl]
  norm_num [dummyRow, round2_half]

lemma tailMeanVolume_exDfN : tailMeanVolume exDfN = 0 := by
  norm_num [tailMeanVolume, exDfN, dummyRow]

lemma volumeRule_dummy :
    volumeRule exDfN dummyRow = ([("volume", "neutral", .vol 0 1)], 0, 1) := by
  unfold volumeRule
  rw [tailMeanVolume_exDfN]
  norm_num [dummyRow, round2_1, Int.floor_zero]

lemma rulesOf_exDfN :
    rulesOf exDfN =
      [([("sma20", "bearish", .num none)], -(1/2), 1),
       ([("sma50", "bearish", .num none)], -1, 1),
       ([("sma200", "bearish", .num none)], -(3/2), 1),
       ([], 0, 0),
       ([("rsi", "neutral", .num none)], 0, 1),
       ([("macd", "bearish", .num none)], -1, 1),
       ([], 0, 0),
       ([("bollinger", "neutral", .bands (1/2) none)], 0, 1),
       ([("adx", "neutral", .num none)], 0, 0),
       ([("stochastic", "neutral", .kd none none)], 0, 1),
       ([("volume", "neutral", .vol 0 1)], 0, 1)] := by
  unfold rulesOf
  dsimp only
  rw [currentOf_exDfN, prevOf_exDfN, sma20Rule_none dummyRow rfl,
    sma50Rule_none dummyRow rfl, sma200Rule_none dummyRow rfl,
    rsiRule_none dummyRow rfl, bollingerRule_dummy, volumeRule_dummy]
  rfl

lemma scoreOf_exDfN : scoreOf exDfN = -4 := by
  rw [scoreOf, rulesOf_exDfN]
  norm_num

lemma crossFiresOf_exDfN : crossFiresOf exDfN = 0 := by
  rw [crossFiresOf, currentOf_exDfN, prevOf_exDfN]
  rfl

lemma signalCountOf_exDfN : signalCountOf exDfN = 8 := by
  rw [signalCount_eq, crossFiresOf_exDfN]

lemma normalizedScoreOf_exDfN : normalizedScoreOf exDfN = -(2/3) := by
  rw [normalized_eq_preClamp, preClampOf, scoreOf_exDfN, signalCountOf_exDfN]
  norm_num

lemma entriesOf_exDfN : entriesOf exDfN = exSignalN.indicators := by
  rw [entriesOf, rulesOf_exDfN]
  rfl

lemma generate_signals_exDfN : generate_signals exDfN "MSFT" = some exSignalN := by
  unfold generate_signals
  have hne : exDfN.isEmpty = false := rfl
  rw [hne]
  dsimp only [Bool.false_eq_true, if_false]
  rw [currentOf_exDfN, prevOf_exDfN, entriesOf_exDfN, normalizedScoreOf_exDfN]
  norm_num [dummyRow, exSignalN, round2_0, round2_neg23, overallSignalOf]

/-- C10 witness: on the all-NaN one-row frame the three SMA rules emit
bearish entries with their full negative deltas, the RSI rule a neutral
entry, and the denominator still counts 8 rules. -/
theorem undefined_indicator_rules_count_witness :
    (("sma20", "bearish", EntryVal.num none) ∈ exSignalN.indicators ∧
      (sma20Rule (currentOf exDfN)).2.1 = -(1/2) ∧
      (sma20Rule (currentOf exDfN)).2.2 = 1) ∧
    (("sma50", "bearish", EntryVal.num none) ∈ exSignalN.indicators ∧
      (sma50Rule (currentOf exDfN)).2.1 = -1 ∧
      (sma50Rule (currentOf exDfN)).2.2 = 1) ∧
    (("sma200", "bearish", EntryVal.num none) ∈ exSignalN.indicators ∧
      (sma200Rule (currentOf exDfN)).2.1 = -(3/2) ∧
      (sma200Rule (currentOf exDfN)).2.2 = 1) ∧
    (("rsi", "neutral", EntryVal.num none) ∈ exSignalN.indicators ∧
      (rsiRule (currentOf exDfN)).2.1 = 0 ∧
      (rsiRule (currentOf exDfN)).2.2 = 1) ∧
    signalCountOf exDfN = 8 + crossFiresOf exDfN := by
  have T := undefined_indicator_rules_count exDfN "MSFT" exSignalN
    generate_signals_exDfN
  exact ⟨T.1 rfl, T.2.1 rfl, T.2.2.1 rfl, T.2.2.2.1 rfl, T.2.2.2.2⟩

/-- A malformed two-bar series: the timestamps descend (1 then 0) and one
close is non-positive. -/
def badBars : List Bar :=
  [{ timestamp := 1, openPrice := 5, high := 6, low := 4, close := -5, volume := 10 },
   { timestamp := 0, openPrice := 5, high := 6, low := 4, close := 5, volume := 10 }]

/-- C2 counterexample: the Indicator Engine accepts a malformed series
rather than failing on it: `badBars` has non-ascending timestamps (and a
non-positive price), yet `calculate_technical_indicators` returns an
annotated series. -/
theorem indicator_engine_no_validation :
    ¬ ascendingTimestamps badBars ∧
      (calculate_technical_indicators (fun _ => 0) (some badBars)).isSome = true := by
  constructor
  · intro hasc
    simp [ascendingTimestamps, badBars, List.chain'_cons] at hasc
    norm_num at hasc
  · simp [calculate_technical_indicators, badBars]

/-- C2 (amended): the Indicator Engine fails (returns no annotated series)
exactly when the input is missing or empty; every nonempty series —
well-formed or not — is annotated, one output row per input bar.  The
source validates neither timestamps nor prices. -/
theorem indicator_engine_fails_iff_empty (std : List ℚ → ℚ)
    (data : Option (List Bar)) :
    (calculate_technical_indicators std data = none ↔
      data = none ∨ data = some []) ∧
    ∀ bars : List Bar, (annotateSeries std bars).length = bars.length := by
  constructor
  · rcases data with _ | bars
    · simp [calculate_technical_indicators]
    · rcases bars with _ | ⟨b, bs⟩ <;> simp [calculate_technical_indicators]
  · intro bars
    simp [annotateSeries]

/-- C9: the watchlist operations are idempotent no-ops at the boundary:
adding a present symbol or removing an absent one changes nothing and
returns false; otherwise add appends the symbol returning true and remove
deletes its occurrence returning true. -/
theorem watchlist_boundary (s : String) (l : List String) :
    (s ∈ l → add_stock s l = (false, l)) ∧
    (s ∉ l → remove_stock s l = (false, l)) ∧
    (s ∉ l → add_stock s l = (true, l ++ [s])) ∧
    (s ∈ l → remove_stock s l = (true, l.erase s) ∧
      (l.Nodup → s ∉ (remove_stock s l).2)) := by
  refine ⟨fun h => ?_, fun h => ?_, fun h => ?_, fun h => ?_⟩
  · simp [add_stock, h]
  · simp [remove_stock, h]
  · simp [add_stock, h]
  · refine ⟨by simp [remove_stock, h], fun hnd => ?_⟩
    simp only [remove_stock, if_pos h]
    exact hnd.not_mem_erase

/-- C9 witness: the four boundary behaviours at concrete watchlists. -/
theorem watchlist_boundary_witness :
    add_stock "AAPL" ["AAPL", "MSFT"] = (false, ["AAPL", "MSFT"]) ∧
    remove_stock "TSLA" ["AAPL", "MSFT"] = (false, ["AAPL", "MSFT"]) ∧
    add_stock "TSLA" ["AAPL", "MSFT"] = (true, ["AAPL", "MSFT", "TSLA"]) ∧
    remove_stock "AAPL" ["AAPL", "MSFT"] = (true, ["AAPL", "MSFT"].erase "AAPL") ∧
    "AAPL" ∉ (remove_stock "AAPL" ["AAPL", "MSFT"]).2 := by
  refine ⟨(watchlist_boundary "AAPL" _).1 (by simp),
    (watchlist_boundary "TSLA" _).2.1 (by simp),
    (watchlist_boundary "TSLA" _).2.2.1 (by simp), ?_, ?_⟩
  · exact ((watchlist_boundary "AAPL" _).2.2.2 (by simp)).1
  · exact ((watchlist_boundary "AAPL" _).2.2.2 (by simp)).2 (by simp)

/-- A flat constant-price series: `n` bars with open, high, low and close
all equal to `c` and volume `v`, timestamps ascending. -/
def constBars (c v : ℚ) (n : ℕ) : List Bar :=
  (List.range n).map (fun i : ℕ =>
    { timestamp := (i : ℚ), openPrice := c, high := c, low := c, close := c,
      volume := v })

lemma constBars_length (c v : ℚ) (n : ℕ) : (constBars c v n).length = n := by
  unfold constBars
  rw [List.length_map, List.length_range]

lemma constBars_closes (c v : ℚ) (n : ℕ) :
    (constBars c v n).map Bar.close = List.replicate n c := by
  unfold constBars
  rw [List.map_map]
  have h : (Bar.close ∘ fun i : ℕ =>
      ({ timestamp := (i : ℚ), openPrice := c, high := c, low := c, close := c,
         volume := v } : Bar)) = fun _ => c := rfl
  rw [h, List.map_const', List.length_range]

lemma lastWindow_replicate (c : ℚ) (n i w : ℕ) (hw : w ≤ i + 1) (hi : i < n) :
    lastWindow (List.replicate n c) i w = List.replicate w c := by
  unfold lastWindow
  rw [List.take_replicate, List.drop_replicate]
  congr 1
  omega

lemma listMean_replicate (c : ℚ) (w : ℕ) (h : w ≠ 0) :
    listMean (List.replicate w c) = c := by
  unfold listMean
  rw [List.length_replicate, List.sum_replicate, if_neg h, nsmul_eq_mul]
  rw [mul_div_cancel_left₀]
  exact_mod_cast h

lemma popVar_replicate (c : ℚ) (w : ℕ) (h : w ≠ 0) :
    popVar (List.replicate w c) = 0 := by
  unfold popVar
  rw [listMean_replicate c w h, List.map_replicate]
  simp [listMean, List.sum_replicate]

lemma currentOf_annotate (std : List ℚ → ℚ) (bars : List Bar)
    (h : 0 < bars.length) :
    currentOf (annotateSeries std bars) = annotRowAt std bars (bars.length - 1) := by
  unfold currentOf annotateSeries
  rw [List.getLast?_eq_getElem?]
  simp only [List.length_map, List.length_range, List.getElem?_map,
    List.getElem?_range, Nat.sub_lt h Nat.one_pos, if_pos]
  rfl

lemma const_last_bb (std : List ℚ → ℚ) (hstd : ∀ w, popVar w = 0 → std w = 0)
    (c v : ℚ) (n : ℕ) (hc : c ≠ 0) (hn : 200 ≤ n) :
    (annotRowAt std (constBars c v n) (n-1)).bbUpper = some c ∧
    (annotRowAt std (constBars c v n) (n-1)).bbLower = some c ∧
    (annotRowAt std (constBars c v n) (n-1)).close = c ∧
    (annotRowAt std (constBars c v n) (n-1)).bbWidth = some 0 := by
  have hwin : lastWindow ((constBars c v n).map Bar.close) (n-1) 20 =
      List.replicate 20 c := by
    rw [constBars_closes]
    exact lastWindow_replicate c n (n-1) 20 (by omega) (by omega)
  have hstd0 : std (lastWindow ((constBars c v n).map Bar.close) (n-1) 20) = 0 := by
    rw [hwin]
    exact hstd _ (popVar_replicate c 20 (by norm_num))
  have hmid : bbMidAt ((constBars c v n).map Bar.close) (n-1) = some c := by
    unfold bbMidAt smaAt
    rw [if_neg (by omega), hwin, listMean_replicate c 20 (by norm_num)]
  have hup : bbUpperAt std ((constBars c v n).map Bar.close) (n-1) = some c := by
    unfold bbUpperAt
    rw [hmid, hstd0]
    simp
  have hlow : bbLowerAt std ((constBars c v n).map Bar.close) (n-1) = some c := by
    unfold bbLowerAt
    rw [hmid, hstd0]
    simp
  have hclose : (annotRowAt std (constBars c v n) (n-1)).close = c := by
    unfold annotRowAt constBars
    dsimp only
    rw [List.getD_eq_getElem?_getD, List.getElem?_map, List.getElem?_range (by omega)]
    rfl
  refine ⟨hup, hlow, hclose, ?_⟩
  unfold annotRowAt
  dsimp only
  unfold bbWidthAt
  rw [hup, hlow, hmid]
  dsimp only
  rw [if_neg hc]
  norm_num

/-- C6: the Bollinger rule's band position is `(close − lower) / (upper −
lower)` when the band difference is positive and the neutral fallback 0.5
when it is zero; moreover, annotating a flat constant-price series of
length ≥ 200 gives the last bar coinciding bands (width 0), on which the
rule resolves to the neutral sub-signal at position 0.5 — the embedding is
a total function, so no division error can occur. -/
theorem bollinger_zero_width_fallback
    (r : Row) (u lo : ℚ) (hu : r.bbUpper = some u) (hl : r.bbLower = some lo)
    (std : List ℚ → ℚ) (hstd : ∀ w, popVar w = 0 → std w = 0)
    (c v : ℚ) (n : ℕ) (hc : 0 < c) (hn : 200 ≤ n) :
    (0 < u - lo → bb_position r = (r.close - lo) / (u - lo)) ∧
    (u - lo = 0 → bb_position r = 1/2) ∧
    bollingerRule (currentOf (annotateSeries std (constBars c v n))) =
      ([("bollinger", "neutral", .bands (1/2) (some 0))], 0, 1) := by
  refine ⟨fun hpos => ?_, fun h0 => ?_, ?_⟩
  · unfold bb_position
    rw [hu, hl]
    dsimp only
    rw [if_pos hpos]
  · unfold bb_position
    rw [hu, hl]
    dsimp only
    rw [if_neg (by rw [h0]; norm_num)]
  · have hcur : currentOf (annotateSeries std (constBars c v n)) =
        annotRowAt std (constBars c v n) ((constBars c v n).length - 1) :=
      currentOf_annotate std _ (by rw [constBars_length]; omega)
    rw [constBars_length] at hcur
    obtain ⟨hup, hlow, hclose, hwidth⟩ :=
      const_last_bb std hstd c v n (ne_of_gt hc) hn
    have hpos : bb_position (annotRowAt std (constBars c v n) (n-1)) = 1/2 := by
      unfold bb_position
      rw [hup, hlow]
      dsimp only
      rw [if_neg (by norm_num)]
    rw [hcur]
    unfold bollingerRule
    rw [hpos, hwidth]
    norm_num [round2_half, round2_0]

/-- C6 witness: the three parts at concrete inputs — a row with bands 300
and 100, and the flat series of 200 bars at price 100. -/
theorem bollinger_zero_width_fallback_witness :
    ((0 : ℚ) < 300 - 100 → bb_position exRow = (exRow.close - 100) / (300 - 100)) ∧
    ((300 : ℚ) - 100 = 0 → bb_position exRow = 1/2) ∧
    bollingerRule (currentOf (annotateSeries (fun _ => 0) (constBars 100 1000 200))) =
      ([("bollinger", "neutral", .bands (1/2) (some 0))], 0, 1) :=
  bollinger_zero_width_fallback exRow 300 100 rfl rfl (fun _ => 0)
    (fun _ _ => rfl) 100 1000 200 (by norm_num) (by norm_num)
